import Mathlib

/-
  Verification of the hash-driven selection and shuffle algorithms of the
  Repeater-Divination repository: a shallow embedding in Lean 4 of the
  primitives shared by its divination scripts (SHA-512 based index
  derivation, Fisher-Yates shuffles, collision-avoidance draw loops,
  pop-based draws, geomantic figure arithmetic, I-Ching line casting),
  with theorems settling the stated properties.
-/

set_option maxRecDepth 8000

namespace Div

/-! ## Bytes and SHA-512 (the hash primitive used by the scripts) -/

/-- UTF-8 encoding of a single character, as Python str.encode produces. -/
def utf8Char (c : Char) : List Nat :=
  let n := c.toNat
  if n < 128 then [n]
  else if n < 2048 then [192 + n / 64, 128 + n % 64]
  else if n < 65536 then [224 + n / 4096, 128 + n / 64 % 64, 128 + n % 64]
  else [240 + n / 262144, 128 + n / 4096 % 64, 128 + n / 64 % 64, 128 + n % 64]

/-- The UTF-8 bytes of a string, each in the range 0..255. -/
def strBytes (s : String) : List Nat :=
  (s.data.map utf8Char).flatten

/-- The word modulus of SHA-512, 2 to the power 64. -/
def w64 : Nat := 18446744073709551616

/-- 64-bit modular addition. -/
def add64 (a b : Nat) : Nat := (a + b) % w64

/-- Right rotation of a 64-bit word by n bits. -/
def rotr (n x : Nat) : Nat := ((x >>> n) ||| (x <<< (64 - n))) % w64

/-- The SHA-2 choice function on 64-bit words. -/
def shaCh (x y z : Nat) : Nat := (x &&& y) ^^^ ((x ^^^ (w64 - 1)) &&& z)

/-- The SHA-2 majority function. -/
def shaMaj (x y z : Nat) : Nat := (x &&& y) ^^^ (x &&& z) ^^^ (y &&& z)

def bigSigma0 (x : Nat) : Nat := rotr 28 x ^^^ rotr 34 x ^^^ rotr 39 x

def bigSigma1 (x : Nat) : Nat := rotr 14 x ^^^ rotr 18 x ^^^ rotr 41 x

def smallSigma0 (x : Nat) : Nat := rotr 1 x ^^^ rotr 8 x ^^^ (x >>> 7)

def smallSigma1 (x : Nat) : Nat := rotr 19 x ^^^ rotr 61 x ^^^ (x >>> 6)

/-- The 80 SHA-512 round constants (FIPS 180-4, in decimal). -/
def K512 : List Nat :=
  [4794697086780616226, 8158064640168781261, 13096744586834688815,
   16840607885511220156, 4131703408338449720, 6480981068601479193,
   10538285296894168987, 12329834152419229976, 15566598209576043074,
   1334009975649890238, 2608012711638119052, 6128411473006802146,
   8268148722764581231, 9286055187155687089, 11230858885718282805,
   13951009754708518548, 16472876342353939154, 17275323862435702243,
   1135362057144423861, 2597628984639134821, 3308224258029322869,
   5365058923640841347, 6679025012923562964, 8573033837759648693,
   10970295158949994411, 12119686244451234320, 12683024718118986047,
   13788192230050041572, 14330467153632333762, 15395433587784984357,
   489312712824947311, 1452737877330783856, 2861767655752347644,
   3322285676063803686, 5560940570517711597, 5996557281743188959,
   7280758554555802590, 8532644243296465576, 9350256976987008742,
   10552545826968843579, 11727347734174303076, 12113106623233404929,
   14000437183269869457, 14369950271660146224, 15101387698204529176,
   15463397548674623760, 17586052441742319658, 1182934255886127544,
   1847814050463011016, 2177327727835720531, 2830643537854262169,
   3796741975233480872, 4115178125766777443, 5681478168544905931,
   6601373596472566643, 7507060721942968483, 8399075790359081724,
   8693463985226723168, 9568029438360202098, 10144078919501101548,
   10430055236837252648, 11840083180663258601, 13761210420658862357,
   14299343276471374635, 14566680578165727644, 15097957966210449927,
   16922976911328602910, 17689382322260857208, 500013540394364858,
   748580250866718886, 1242879168328830382, 1977374033974150939,
   2944078676154940804, 3659926193048069267, 4368137639120453308,
   4836135668995329356, 5532061633213252278, 6448918945643986474,
   6902733635092675308, 7801388544844847127]

/-- The SHA-512 initial hash state (FIPS 180-4, in decimal). -/
def H512 : List Nat :=
  [7640891576956012808, 13503953896175478587, 4354685564936845355,
   11912009170470909681, 5840696475078001361, 11170449401992604703,
   2270897969802886507, 6620516959819538809]

/-- Big-endian byte decomposition of a number into k bytes. -/
def beBytes : Nat → Nat → List Nat
  | 0, _ => []
  | k + 1, x => beBytes k (x / 256) ++ [x % 256]

/-- Big-endian interpretation of a byte list as a number
    (the semantics of int.from_bytes with byteorder big). -/
def natOfBytes (l : List Nat) : Nat :=
  l.foldl (fun a b => a * 256 + b) 0

/-- Split a list into consecutive chunks of the given size (fuel variant). -/
def chunksAux (size : Nat) : Nat → List Nat → List (List Nat)
  | 0, _ => []
  | _, [] => []
  | fuel + 1, l => l.take size :: chunksAux size fuel (l.drop size)

/-- Split a list into consecutive chunks of the given size. -/
def chunks (size : Nat) (l : List Nat) : List (List Nat) :=
  chunksAux size l.length l

/-- SHA-512 message padding: append the byte 0x80, zeros up to 112 mod 128,
    then the 16-byte big-endian bit length. -/
def padMessage (msg : List Nat) : List Nat :=
  let L := msg.length
  msg ++ [128] ++ List.replicate ((240 - (L + 1) % 128) % 128) 0 ++ beBytes 16 (8 * L)

/-- Append one derived word to the SHA-512 message schedule. -/
def scheduleStep (w : List Nat) : List Nat :=
  let n := w.length
  w ++ [add64 (add64 (w.getD (n - 16) 0) (smallSigma0 (w.getD (n - 15) 0)))
              (add64 (w.getD (n - 7) 0) (smallSigma1 (w.getD (n - 2) 0)))]

/-- Extend the 16 block words to the 80 schedule words. -/
def schedule (w : List Nat) : List Nat :=
  (List.range 64).foldl (fun acc _ => scheduleStep acc) w

/-- One SHA-512 round on the eight working registers. -/
def shaRound (regs : List Nat) (kw : Nat × Nat) : List Nat :=
  match regs with
  | [a, b, c, d, e, f, g, h] =>
    let t1 := add64 (add64 (add64 h (bigSigma1 e)) (add64 (shaCh e f g) kw.1)) kw.2
    let t2 := add64 (bigSigma0 a) (shaMaj a b c)
    [add64 t1 t2, a, b, c, add64 d t1, e, f, g]
  | r => r

/-- The SHA-512 compression function over one 128-byte block. -/
def compress (h : List Nat) (block : List Nat) : List Nat :=
  let w := schedule ((chunks 8 block).map natOfBytes)
  let r := (K512.zip w).foldl shaRound h
  (h.zip r).map (fun p => add64 p.1 p.2)

/-- SHA-512 of a byte list, yielding the 64 digest bytes. -/
def sha512 (msg : List Nat) : List Nat :=
  (((chunks 128 (padMessage msg)).foldl compress H512).map (beBytes 8)).flatten

/-- Apply sha512 iteratively k times (the repeated-hash loop shared by
    Tableau.py, Runes.py, Lenormand.py, Geomancy.py and MKabbalah.py). -/
def iterSha : Nat → List Nat → List Nat
  | 0, h => h
  | k + 1, h => iterSha k (sha512 h)

/-- The hash_question primitive of Tableau.py, Runes.py, Lenormand.py,
    Geomancy.py and MKabbalah.py: encode question ++ salt, apply SHA-512
    in a loop running times iterations, and read the digest big-endian. -/
def hash_question (question : String) (salt : String) (times : Nat) : Nat :=
  natOfBytes (iterSha times (strBytes (question ++ salt)))

/-- The index derivation as claim C1 words it: first hash the concatenation
    once (digest = H of q ++ s), then re-hash the digest k further times,
    and read the result big-endian. -/
def hash_question_claimed (question : String) (salt : String) (k : Nat) : Nat :=
  natOfBytes (iterSha k (sha512 (strBytes (question ++ salt))))

/-- The hash_question variant of ASTROLOGY.py, which prepends OS-supplied
    random bytes (os.urandom) to the encoded question ++ salt before the
    iterated hashing; the entropy is passed here as an explicit argument. -/
def astro_hash_question (entropy : List Nat) (question : String) (salt : String)
    (times : Nat) : Nat :=
  natOfBytes (iterSha times (entropy ++ strBytes (question ++ salt)))

/-- The zodiac sign table of ASTROLOGY.py. -/
def SIGNS : List String :=
  ["Aries", "Taurus", "Gemini", "Cancer", "Leo", "Virgo", "Libra", "Scorpio",
   "Sagittarius", "Capricorn", "Aquarius", "Pisces"]

/-- The house table of ASTROLOGY.py. -/
def HOUSES : List String :=
  ["1st House", "2nd House", "3rd House", "4th House", "5th House", "6th House",
   "7th House", "8th House", "9th House", "10th House", "11th House", "12th House"]

/-- The per-planet placement of generate_chart in ASTROLOGY.py:
    total_degree = hash mod 360, sign index total_degree / 30,
    house index = hash mod number of houses. -/
def chartPlacement (entropy : List Nat) (question salt : String) :
    Nat × Nat × Nat :=
  let total_degree := astro_hash_question entropy question (salt ++ "degree") 8888 % 360
  let sign_index := total_degree / 30
  let house_index := astro_hash_question entropy question (salt ++ "house") 8888 % HOUSES.length
  (total_degree, sign_index, house_index)

/-! ## Static content tables (Runes.py, Tableau.py / Lenormand.py) -/

/-- RUNE_COUNT in Runes.py. -/
def RUNE_COUNT : Nat := 24

/-- The Elder Futhark rune table of Runes.py. -/
def runes : List String :=
  ["Fehu", "Uruz", "Thurisaz", "Ansuz", "Raidho", "Kenaz", "Gebo", "Wunjo",
   "Hagalaz", "Nauthiz", "Isa", "Jera", "Eihwaz", "Perthro", "Algiz", "Sowilo",
   "Tiwaz", "Berkano", "Ehwaz", "Mannaz", "Laguz", "Ingwaz", "Dagaz", "Othala"]

/-- DECK_SIZE in Tableau.py and Lenormand.py. -/
def DECK_SIZE : Nat := 36

/-- The 36-card Lenormand table shared by Tableau.py and Lenormand.py. -/
def cards : List String :=
  ["Rider", "Clover", "Ship", "House", "Tree", "Clouds", "Snake", "Coffin",
   "Bouquet", "Scythe", "Whip", "Birds", "Child", "Fox", "Bear", "Stars",
   "Stork", "Dog", "Tower", "Garden", "Mountain", "Crossroads", "Mice", "Heart",
   "Ring", "Book", "Letter", "Man", "Woman", "Lilies", "Sun", "Moon", "Key",
   "Fish", "Anchor", "Cross"]

/-! ## The collision-avoidance draw loop of Runes.py (draw_runes)

The inner while-True loop of draw_runes recomputes the index from the SAME
question and salt on every pass; it is modelled with explicit fuel, the hash
abstracted to a function from question and salt to the derived integer. -/

/-- The per-draw salt of Runes.py draw_runes:
    question ++ "-rune" ++ i ++ "-time" ++ timestamp. -/
def runeSalt (question : String) (i t : Nat) : String :=
  question ++ "-rune" ++ toString i ++ "-time" ++ toString t

/-- The inner while-True retry loop of draw_runes: recompute
    index = h question salt mod RUNE_COUNT until it is unused.
    The salt never changes between passes, exactly as in the source. -/
def drawLoop (h : String → String → Nat) (question salt : String)
    (used : List Nat) : Nat → Option Nat
  | 0 => none
  | fuel + 1 =>
    let index := h question salt % RUNE_COUNT
    if index ∈ used then drawLoop h question salt used fuel else some index

/-- The outer for-loop of draw_runes over draw positions i, threading the
    used-index set and collecting the drawn rune names. -/
def drawRunesAux (h : String → String → Nat) (question : String) (t fuel : Nat) :
    Nat → Nat → List Nat → Option (List String)
  | _, 0, _ => some []
  | i, c + 1, used =>
    match drawLoop h question (runeSalt question i t) used fuel with
    | none => none
    | some index =>
      (drawRunesAux h question t fuel (i + 1) c (index :: used)).map
        (fun rest => runes.getD index "" :: rest)

/-- draw_runes of Runes.py, with the hash abstracted and fuel bounding the
    inner retry loop: some result means the loop terminated within fuel. -/
def draw_runes (h : String → String → Nat) (question : String)
    (count t fuel : Nat) : Option (List String) :=
  drawRunesAux h question t fuel 0 count []

/-! ## Fisher-Yates shuffles (Tableau.py shuffle_deck, multi.py) -/

/-- The simultaneous swap of two positions of a list, as
    xs[i], xs[j] = xs[j], xs[i] performs. -/
def swapIdx [Inhabited α] (l : List α) (i j : Nat) : List α :=
  let a := l.getD i default
  let b := l.getD j default
  (l.set i b).set j a

/-- A Fisher-Yates pass: for each index i of steps, swap position i with
    position choice i mod (i + 1). -/
def fisherYates [Inhabited α] (choice : Nat → Nat) (steps : List Nat)
    (l : List α) : List α :=
  steps.foldl (fun acc i => swapIdx acc i (choice i % (i + 1))) l

/-- The per-step salt of Tableau.py shuffle_deck:
    question ++ "-shuffle" ++ i ++ "-time" ++ timestamp. -/
def shuffleSalt (question : String) (i t : Nat) : String :=
  question ++ "-shuffle" ++ toString i ++ "-time" ++ toString t

/-- THINK_DEPTH, the default iteration count of hash_question. -/
def THINK_DEPTH : Nat := 8888

/-- shuffle_deck of Tableau.py: copy the card table, then for
    i = DECK_SIZE - 1 down to 1 swap position i with position
    hash_question question salt mod (i + 1). The wall-clock timestamp read
    by the source is an explicit argument here. -/
def shuffle_deck (question : String) (timestamp : Nat) : List String :=
  fisherYates (fun i => hash_question question (shuffleSalt question i timestamp) THINK_DEPTH)
    ((List.range' 1 (DECK_SIZE - 1)).reverse) cards

/-- The in-place library shuffle used by multi.py (random.Random shuffle):
    for i = len - 1 down to 1, swap position i with position randbelow (i+1);
    the generator is abstracted to the function randbelow. -/
def pyShuffle [Inhabited α] (randbelow : Nat → Nat) (l : List α) : List α :=
  ((List.range' 1 (l.length - 1)).reverse).foldl
    (fun acc i => swapIdx acc i (randbelow (i + 1))) l

/-- The shuffled index list built by TarotReader.prepare_interactive_deck in
    multi.py: indices = list(range(len(deck))) shuffled by the seeded
    generator; the deck there has 78 cards. -/
def prepare_deck_indices (randbelow : Nat → Nat) : List Nat :=
  pyShuffle randbelow (List.range 78)

/-! ## Module state threading (claim C6)

Each script keeps its table in a module-level (or object-level) list; the
operations below are embedded as explicit state transformers returning the
value of that list after the call. The bodies mirror the sources, which copy
the table (list(cards), .copy()) before mutating. -/

/-- The module state of Tableau.py: the cards table. -/
structure TableauState where
  cards : List String

/-- shuffle_deck as a state transformer over the Tableau.py module state:
    shuffled_deck = list(cards) copies, and the Fisher-Yates swaps act on
    the copy only. -/
def shuffle_deck_st (s : TableauState) (question : String) (timestamp : Nat) :
    List String × TableauState :=
  let shuffled :=
    fisherYates (fun i => hash_question question (shuffleSalt question i timestamp) THINK_DEPTH)
      ((List.range' 1 (DECK_SIZE - 1)).reverse) s.cards
  (shuffled, s)

/-! ## interpret_reading of Runes.py (claim C7) -/

/-- A chat-completion request body: model name and role-content pairs. -/
structure Payload where
  model : String
  messages : List (String × String)

/-- The user-facing message interpret_reading returns when the
    OPENROUTER_API_KEY environment variable is not set. -/
def noKeyMessage : String :=
  "[red]❌ OPENROUTER_API_KEY environment variable not set.[/red]\n" ++
  "[yellow]💡 Tip: Get a key from https://openrouter.ai and set it.[/yellow]\n" ++
  "[yellow]   Linux/macOS: export OPENROUTER_API_KEY=\x27your-key-here\x27[/yellow]\n" ++
  "[yellow]   Windows: setx OPENROUTER_API_KEY your-key-here[/yellow]"

/-- The rune text block interpret_reading builds for the prompt. -/
def runeText (rune_list : List String) : String :=
  if rune_list.length = 3 then
    String.intercalate "\n"
      ((["1. Past", "2. Present", "3. Future"].zip rune_list).map
        (fun p => p.1 ++ ": " ++ p.2))
  else
    String.intercalate ", " rune_list

/-- The fixed system prompt of Runes.py interpret_reading. -/
def runesSystemPrompt : String :=
  "You are an Anthro sage giving a spiritual rune reading based on the AnthroHeart Saga. " ++
  "Give a mystical, poetic, or practical interpretation based on the Elder Futhark runes drawn. " ++
  "If using a three-rune spread, interpret each rune in its position (Past, Present, Future). " ++
  "Feel free to reference the AnthroHeart field or Saga themes. Keep it sacred and helpful."

/-- The user prompt of Runes.py interpret_reading. -/
def runesUserPrompt (question : String) (rune_list : List String) : String :=
  "The question is: \x27" ++ question ++ "\x27\n\n" ++
  "The following rune(s) were drawn:\n" ++ runeText rune_list

/-- interpret_reading of Runes.py. The environment variable is the explicit
    Option argument; the HTTP layer is the abstract function post, applied to
    the request body. The second component lists the requests actually
    issued, so an empty list means no HTTP request was made. -/
def interpret_reading (api_key : Option String) (post : Payload → String)
    (question : String) (rune_list : List String) (model : String) :
    String × List Payload :=
  match api_key with
  | none => (noKeyMessage, [])
  | some _ =>
    let payload : Payload :=
      ⟨model, [("system", runesSystemPrompt), ("user", runesUserPrompt question rune_list)]⟩
    (post payload, [payload])

/-- The lines main of Runes.py prints for the drawn runes, before it calls
    interpret_reading (three-rune spreads get position labels). -/
def displayRuneLines (spread : Nat) (drawn : List String) : List String :=
  if spread = 3 then
    (["1. Past", "2. Present", "3. Future"].zip drawn).map
      (fun p => p.1 ++ ": " ++ p.2)
  else
    drawn.enum.map (fun p => toString (p.1 + 1) ++ ". " ++ p.2)

/-- The console output of the tail of main of Runes.py, from the point where
    the runes have been drawn: the rune lines are printed, then the result of
    interpret_reading. Second component: the HTTP requests issued. -/
def runesMainOutput (api_key : Option String) (post : Payload → String)
    (model question : String) (spread : Nat) (drawn : List String) :
    List String × List Payload :=
  let r := interpret_reading api_key post question drawn model
  (displayRuneLines spread drawn ++ [r.1], r.2)

end Div

namespace Tarot2

/-! ## TAROT2.py: pop-based card draws (claims C6, C8) -/

/-- A tarot card as in TAROT2.py (name, major-arcana flag). -/
structure TarotCard where
  name : String
  major : Bool
deriving DecidableEq

/-- A drawn card with its orientation. -/
structure DrawnCard where
  card : TarotCard
  reversed : Bool

/-- The 22 major arcana names. -/
def MAJOR_ARCANA : List String :=
  ["The Fool", "The Magician", "The High Priestess", "The Empress", "The Emperor",
   "The Hierophant", "The Lovers", "The Chariot", "Strength", "The Hermit",
   "Wheel of Fortune", "Justice", "The Hanged Man", "Death", "Temperance",
   "The Devil", "The Tower", "The Star", "The Moon", "The Sun",
   "Judgement", "The World"]

def SUITS : List String := ["Wands", "Cups", "Swords", "Pentacles"]

/-- RANKS = Ace, 2..10, Page, Knight, Queen, King. -/
def RANKS : List String :=
  ["Ace"] ++ (List.range' 2 9).map (fun n => toString n) ++
  ["Page", "Knight", "Queen", "King"]

/-- TarotDeck build_deck: majors first, then rank-of-suit minors. -/
def build_deck : List TarotCard :=
  MAJOR_ARCANA.map (fun n => ⟨n, true⟩) ++
  (SUITS.map (fun suit => RANKS.map (fun rank =>
    TarotCard.mk (rank ++ " of " ++ suit) false))).flatten

/-- The loop body of TarotReader.draw_cards: for each i, stop if no cards
    remain, else pop the card at index hash mod (number remaining) from the
    available list and decide its orientation from a second hash. The PBKDF2
    engine (hash_for_int of seed and salt) is abstracted to h. -/
def drawGo (h : String → Nat) (rev : Bool) :
    Nat → Nat → List TarotCard → List DrawnCard
  | _, 0, _ => []
  | i, c + 1, avail =>
    if avail.isEmpty then []
    else
      let index := h ("card-draw-" ++ toString i) % avail.length
      let card := avail.getD index ⟨"", false⟩
      let isRev := rev && (h ("reversal-" ++ toString i) &&& 1 == 1)
      ⟨card, isRev⟩ :: drawGo h rev (i + 1) c (avail.eraseIdx index)

/-- TarotReader.draw_cards of TAROT2.py over the freshly built 78-card deck. -/
def draw_cards (h : String → Nat) (rev : Bool) (num_cards : Nat) : List DrawnCard :=
  drawGo h rev 0 num_cards build_deck

/-- The reader state of TAROT2.py: the deck list held by the reader. -/
structure Tarot2State where
  deck : List TarotCard

/-- draw_cards as a state transformer: available_cards = deck.copy(), and
    the pops act on the copy only. -/
def draw_cards_st (h : String → Nat) (rev : Bool) (s : Tarot2State)
    (num_cards : Nat) : List DrawnCard × Tarot2State :=
  (drawGo h rev 0 num_cards s.deck, s)

end Tarot2

namespace Kabbalah5

/-! ## KABBALAH5.py: sephirot and paths readings (claims C6, C8) -/

/-- The 10 sephirot names of KABBALAH5.py. -/
def sephirot_names : List String :=
  ["Keter (Crown)", "Chokmah (Wisdom)", "Binah (Understanding)", "Chesed (Mercy)",
   "Gevurah (Strength)", "Tiferet (Beauty)", "Netzach (Victory)", "Hod (Splendor)",
   "Yesod (Foundation)", "Malkuth (Kingdom)"]

/-- The 22 path names of KABBALAH5.py. -/
def paths : List String :=
  ["Path of Aleph (Air)", "Path of Beth (Mercury)", "Path of Gimel (Moon)",
   "Path of Daleth (Venus)", "Path of Heh (Aries)", "Path of Vav (Taurus)",
   "Path of Zayin (Gemini)", "Path of Cheth (Cancer)", "Path of Teth (Leo)",
   "Path of Yod (Virgo)", "Path of Kaph (Jupiter)", "Path of Lamed (Libra)",
   "Path of Mem (Water)", "Path of Nun (Scorpio)", "Path of Samekh (Sagittarius)",
   "Path of Ayin (Capricorn)", "Path of Peh (Mars)", "Path of Tzaddi (Aquarius)",
   "Path of Qoph (Pisces)", "Path of Resh (Sun)", "Path of Shin (Fire)",
   "Path of Tav (Saturn)"]

/-- The per-sephirah state selection of get_sephirot_reading: a roll
    hash mod 1000 picks Deficient below 75, Excessive below 150, else Normal. -/
def sephState (h : String → Nat) (name : String) (i : Nat) : String :=
  let prob_roll := h ("sephirah-state-" ++ name ++ "-" ++ toString i) % 1000
  if prob_roll < 75 then "Deficient"
  else if prob_roll < 150 then "Excessive"
  else "Normal"

/-- The pop loop of get_sephirot_reading for count below 10: pop the name at
    index hash mod (number remaining) from the copied list, count times. -/
def popDrawNames (h : String → Nat) : Nat → Nat → List String → List String
  | _, 0, _ => []
  | i, c + 1, avail =>
    let index := h ("sephirah-name-" ++ toString i) % avail.length
    avail.getD index "" :: popDrawNames h (i + 1) c (avail.eraseIdx index)

/-- get_sephirot_reading of KABBALAH5.py: choose the names (all of them when
    count is at least 10, else by popping from a copy), then pair each with
    its state. The PBKDF2 engine is abstracted to h. -/
def get_sephirot_reading (h : String → Nat) (names : List String) (count : Nat) :
    List (String × String) :=
  let chosen := if 10 ≤ count then names else popDrawNames h 0 count names
  chosen.enum.map (fun p => (p.2, sephState h p.2 p.1))

/-- The module state of KABBALAH5.py: the sephirot_names table. -/
structure Kab5State where
  sephirot_names : List String

/-- get_sephirot_reading as a state transformer: the pops act on
    sephirot_names.copy(), and the count-at-least-10 branch only reads. -/
def get_sephirot_reading_st (h : String → Nat) (s : Kab5State) (count : Nat) :
    List (String × String) × Kab5State :=
  (get_sephirot_reading h s.sephirot_names count, s)

/-- The pop loop of get_paths_reading; none models the ZeroDivisionError the
    source would raise if it ever popped from an empty list. -/
def pathsGo (h : String → Nat) : Nat → Nat → List String → Option (List String)
  | _, 0, _ => some []
  | i, c + 1, avail =>
    if avail.isEmpty then none
    else
      let index := h ("path-" ++ toString i) % avail.length
      (pathsGo h (i + 1) c (avail.eraseIdx index)).map
        (fun rest => avail.getD index "" :: rest)

/-- get_paths_reading of KABBALAH5.py: empty for count 0, else pop count
    paths from a copy of the path table. -/
def get_paths_reading (h : String → Nat) (count : Nat) : Option (List String) :=
  if count = 0 then some [] else pathsGo h 0 count paths

end Kabbalah5

namespace Geomancy

/-! ## Geomancy.py: shield chart figures (claim C9) -/

/-- A geomantic figure: four lines, each 1 (single) or 2 (double). -/
abbrev Fig := Nat × Nat × Nat × Nat

/-- The figures dictionary of Geomancy.py as an association list. -/
def figures : List (Fig × String) :=
  [((1, 1, 1, 1), "Via (The Way)"),
   ((1, 1, 1, 2), "Cauda Draconis (The Tail of the Dragon)"),
   ((1, 1, 2, 1), "Puer (The Boy)"),
   ((1, 1, 2, 2), "Fortuna Minor (The Lesser Fortune)"),
   ((1, 2, 1, 1), "Puella (The Girl)"),
   ((1, 2, 1, 2), "Amissio (Loss)"),
   ((1, 2, 2, 1), "Carcer (The Prison)"),
   ((1, 2, 2, 2), "Laetitia (Joy)"),
   ((2, 1, 1, 1), "Caput Draconis (The Head of the Dragon)"),
   ((2, 1, 1, 2), "Conjunctio (The Conjunction)"),
   ((2, 1, 2, 1), "Acquisitio (Gain)"),
   ((2, 1, 2, 2), "Rubeus (Red)"),
   ((2, 2, 1, 1), "Fortuna Major (The Greater Fortune)"),
   ((2, 2, 1, 2), "Albus (White)"),
   ((2, 2, 2, 1), "Tristitia (Sorrow)"),
   ((2, 2, 2, 2), "Populus (The People)")]

/-- Dictionary lookup figures[f]; none models a KeyError. -/
def figureName (f : Fig) : Option String :=
  (figures.find? (fun p => p.1 = f)).map (fun p => p.2)

/-- add_figures of Geomancy.py: add the figures line by line,
    (l1 + l2) mod 2 + 1. -/
def add_figures (f1 f2 : Fig) : Fig :=
  ((f1.1 + f2.1) % 2 + 1,
   (f1.2.1 + f2.2.1) % 2 + 1,
   (f1.2.2.1 + f2.2.2.1) % 2 + 1,
   (f1.2.2.2 + f2.2.2.2) % 2 + 1)

/-- random.choice([1, 2]): the generator is abstracted to pick, whose n-th
    draw selects one of the two list elements. -/
def choiceVal (pick : Nat → Fin 2) (n : Nat) : Nat :=
  if pick n = 0 then 1 else 2

/-- The i-th mother figure of generate_mothers: four successive
    random.choice([1, 2]) draws. -/
def mother (pick : Nat → Fin 2) (i : Nat) : Fig :=
  (choiceVal pick (4 * i), choiceVal pick (4 * i + 1),
   choiceVal pick (4 * i + 2), choiceVal pick (4 * i + 3))

/-- generate_mothers of Geomancy.py: four figures from sixteen successive
    generator draws. -/
def generate_mothers (pick : Nat → Fin 2) : List Fig :=
  [mother pick 0, mother pick 1, mother pick 2, mother pick 3]

/-- The i-th line of a figure (0-based). -/
def figComp (f : Fig) : Nat → Nat
  | 0 => f.1
  | 1 => f.2.1
  | 2 => f.2.2.1
  | _ => f.2.2.2

/-- The i-th daughter: the i-th lines of the four mothers. -/
def daughter (pick : Nat → Fin 2) (i : Nat) : Fig :=
  (figComp (mother pick 0) i, figComp (mother pick 1) i,
   figComp (mother pick 2) i, figComp (mother pick 3) i)

/-- derive_daughters of Geomancy.py. -/
def derive_daughters (pick : Nat → Fin 2) : List Fig :=
  [daughter pick 0, daughter pick 1, daughter pick 2, daughter pick 3]

/-- The four nieces of generate_shield_chart. -/
def nieces (pick : Nat → Fin 2) : List Fig :=
  [add_figures (mother pick 0) (mother pick 1),
   add_figures (mother pick 2) (mother pick 3),
   add_figures (daughter pick 0) (daughter pick 1),
   add_figures (daughter pick 2) (daughter pick 3)]

/-- The two witnesses of generate_shield_chart. -/
def witnesses (pick : Nat → Fin 2) : List Fig :=
  [add_figures ((nieces pick).getD 0 (1, 1, 1, 1)) ((nieces pick).getD 1 (1, 1, 1, 1)),
   add_figures ((nieces pick).getD 2 (1, 1, 1, 1)) ((nieces pick).getD 3 (1, 1, 1, 1))]

/-- The judge of generate_shield_chart. -/
def judge (pick : Nat → Fin 2) : Fig :=
  add_figures ((witnesses pick).getD 0 (1, 1, 1, 1)) ((witnesses pick).getD 1 (1, 1, 1, 1))

/-- All sixteen figures generate_shield_chart looks up in the figures
    dictionary: mothers, daughters, nieces, witnesses, judge. -/
def allShieldFigures (pick : Nat → Fin 2) : List Fig :=
  generate_mothers pick ++ derive_daughters pick ++ nieces pick ++
  witnesses pick ++ [judge pick]

/-- Look up every figure of a list in order; none models the KeyError the
    first failing lookup would raise. -/
def lookupAll : List Fig → Option (List String)
  | [] => some []
  | f :: t =>
    match figureName f, lookupAll t with
    | some n, some ns => some (n :: ns)
    | _, _ => none

/-- generate_shield_chart of Geomancy.py, flattened to the ordered list of
    figure names it places in the chart dictionary; none models a KeyError
    on any of its dictionary lookups. -/
def generate_shield_chart (pick : Nat → Fin 2) : Option (List String) :=
  lookupAll (allShieldFigures pick)

/-- A line value drawable by random.choice([1, 2]). -/
def validLine (n : Nat) : Prop := n = 1 ∨ n = 2

/-- A figure all of whose lines are 1 or 2. -/
def validFig (f : Fig) : Prop :=
  validLine f.1 ∧ validLine f.2.1 ∧ validLine f.2.2.1 ∧ validLine f.2.2.2

end Geomancy

namespace IChing

/-! ## I-CHING.py: hexagram casting (claim C10) -/

/-- line_from_digest of I-CHING.py: 6 plus the count of the three low bits
    of the first digest byte. -/
def line_from_digest (d : List Nat) : Nat :=
  let b := d.headD 0
  6 + (((b >>> 0) &&& 1) + ((b >>> 1) &&& 1) + ((b >>> 2) &&& 1))

/-- yin_yang_bit of I-CHING.py: 0 for 6 or 8, else 1. -/
def yin_yang_bit (line_val : Nat) : Nat :=
  if line_val = 6 ∨ line_val = 8 then 0 else 1

/-- flip_bit of I-CHING.py. -/
def flip_bit (bit : Nat) : Nat := 1 - bit

/-- The six line values cast_hexagram derives; the per-line PBKDF2 digest is
    abstracted to the function digest from line index to digest bytes. -/
def castLines (digest : Nat → List Nat) : List Nat :=
  (List.range 6).map (fun i => line_from_digest (digest i))

/-- primary_bits of cast_hexagram: the yin-yang bit of each line. -/
def primaryBits (digest : Nat → List Nat) : List Nat :=
  (castLines digest).map yin_yang_bit

/-- moving_idx of cast_hexagram: the indices whose line value is 6 or 9. -/
def movingIdx (digest : Nat → List Nat) : List Nat :=
  (List.range 6).filter
    (fun i => (castLines digest).getD i 0 = 6 ∨ (castLines digest).getD i 0 = 9)

/-- relating_bits of cast_hexagram: a copy of primary_bits with the bit
    flipped at each moving index. -/
def relatingBits (digest : Nat → List Nat) : List Nat :=
  (movingIdx digest).foldl
    (fun rb i => rb.set i (flip_bit (rb.getD i 0))) (primaryBits digest)

end IChing

namespace Div

/-! ## Theorems -/

/-- FIPS 180 test vector: the SHA-512 digest of the three bytes abc. -/
theorem sha512_of_abc :
    sha512 (strBytes "abc") =
      [221, 175, 53, 161, 147, 97, 122, 186, 204, 65, 115, 73, 174, 32, 65, 49,
       18, 230, 250, 78, 137, 169, 126, 162, 10, 158, 238, 230, 75, 85, 211, 154,
       33, 146, 153, 42, 39, 79, 193, 168, 54, 186, 60, 35, 163, 254, 235, 189,
       69, 77, 68, 35, 100, 60, 232, 14, 42, 154, 201, 79, 165, 76, 164, 159] := by
  decide

/-! ### Swap and Fisher-Yates permutation lemmas -/

/-- Replacing position j by a and moving the old entry to the front is a
    permutation of consing a. -/
theorem getD_set_cons_perm (d : α) :
    ∀ (t : List α) (j : Nat) (a : α), j < t.length →
      (t.getD j d :: t.set j a).Perm (a :: t)
  | b :: t, 0, a, _ => by
    simpa using List.Perm.swap a b t
  | b :: t, j + 1, a, h => by
    have ih := getD_set_cons_perm d t j a (by simpa using h)
    have h1 : (t.getD j d :: b :: t.set j a).Perm (b :: t.getD j d :: t.set j a) :=
      List.Perm.swap b (t.getD j d) (t.set j a)
    have h2 : (b :: t.getD j d :: t.set j a).Perm (b :: a :: t) := ih.cons b
    have h3 : (b :: a :: t).Perm (a :: b :: t) := List.Perm.swap a b t
    exact (h1.trans h2).trans h3

/-- A simultaneous swap of two in-range positions permutes the list. -/
theorem swapIdx_perm [Inhabited α] :
    ∀ (l : List α) (i j : Nat), i < l.length → j < l.length →
      (swapIdx l i j).Perm l
  | a :: t, 0, 0, _, _ => by
    simp [swapIdx]
  | a :: t, 0, j + 1, _, hj => by
    have := getD_set_cons_perm (default : α) t j a (by simpa using hj)
    simpa [swapIdx] using this
  | a :: t, i + 1, 0, hi, _ => by
    have := getD_set_cons_perm (default : α) t i a (by simpa using hi)
    simpa [swapIdx] using this
  | a :: t, i + 1, j + 1, hi, hj => by
    have ih := swapIdx_perm t i j (by simpa using hi) (by simpa using hj)
    simpa [swapIdx] using ih.cons a

/-- swapIdx preserves length. -/
theorem swapIdx_length [Inhabited α] (l : List α) (i j : Nat) :
    (swapIdx l i j).length = l.length := by
  simp [swapIdx]

/-- A fold of in-range swaps (with the partner of step i given by g i)
    permutes the list. -/
theorem foldl_swap_perm [Inhabited α] (g : Nat → Nat) :
    ∀ (steps : List Nat) (l : List α),
      (∀ i ∈ steps, i < l.length ∧ g i < l.length) →
      (steps.foldl (fun acc i => swapIdx acc i (g i)) l).Perm l
  | [], l, _ => List.Perm.refl l
  | i :: steps, l, h => by
    have hi := h i (List.mem_cons_self i steps)
    have hperm : (swapIdx l i (g i)).Perm l := swapIdx_perm l i (g i) hi.1 hi.2
    have hlen : (swapIdx l i (g i)).length = l.length := swapIdx_length l i (g i)
    have ih := foldl_swap_perm g steps (swapIdx l i (g i))
      (fun m hm => by rw [hlen]; exact h m (List.mem_cons_of_mem _ hm))
    exact List.Perm.trans ih hperm

/-! ### Claim theorems C1 to C7 -/

/-- C1, counterexample: the claim says hash_question hashes the
    concatenation once and then re-hashes k further times; at
    question ab, empty salt, k = 0 and table size 24 the code returns the
    raw-bytes integer 24930 (index 18), while the claimed digest (one
    SHA-512 application) gives index 21. -/
theorem C1_counterexample :
    hash_question "ab" "" 0 % 24 ≠ hash_question_claimed "ab" "" 0 % 24 := by
  decide

/-- C1, amended: hash_question applies SHA-512 exactly times times in total,
    so for k + 1 iterations it equals the digest obtained by hashing
    question ++ salt once and re-hashing k further times (one fewer rehash
    than the claim states), and with zero iterations no hashing occurs at
    all: the raw encoded bytes are read as the integer. -/
theorem C1_hash_question_iteration (q s : String) (k N : Nat) :
    hash_question q s (k + 1) % N = hash_question_claimed q s k % N ∧
    hash_question q s 0 = natOfBytes (strBytes (q ++ s)) :=
  ⟨rfl, rfl⟩

/-- C3: for any question, salt, iteration count and positive table size N,
    the derived index hash_question mod N lies strictly below N; likewise
    for the entropy-mixing ASTROLOGY.py variant, so the rune and card table
    lookups of Runes.py and Lenormand.py and the sign and house lookups of
    generate_chart in ASTROLOGY.py are all in bounds. -/
theorem C3_derived_index_in_bounds (q s : String) (k N : Nat) (hN : 0 < N)
    (entropy : List Nat) :
    hash_question q s k % N < N ∧
    astro_hash_question entropy q s k % N < N ∧
    hash_question q s k % RUNE_COUNT < runes.length ∧
    hash_question q s k % DECK_SIZE < cards.length ∧
    (chartPlacement entropy q s).2.1 < SIGNS.length ∧
    (chartPlacement entropy q s).2.2 < HOUSES.length := by
  refine ⟨Nat.mod_lt _ hN, Nat.mod_lt _ hN, ?_, ?_, ?_, ?_⟩
  · have h : runes.length = RUNE_COUNT := by decide
    rw [h]
    exact Nat.mod_lt _ (by decide)
  · have h : cards.length = DECK_SIZE := by decide
    rw [h]
    exact Nat.mod_lt _ (by decide)
  · have hdeg : astro_hash_question entropy q (s ++ "degree") 8888 % 360 < 360 :=
      Nat.mod_lt _ (by decide)
    have hs : SIGNS.length = 12 := by decide
    show astro_hash_question entropy q (s ++ "degree") 8888 % 360 / 30 < SIGNS.length
    rw [hs]
    omega
  · show astro_hash_question entropy q (s ++ "house") 8888 % HOUSES.length < HOUSES.length
    exact Nat.mod_lt _ (by decide)

/-- Witness for C3 at question a, empty salt, one iteration, table size 5. -/
theorem C3_witness :
    0 < 5 ∧ hash_question "a" "" 1 % 5 < 5 ∧
      astro_hash_question [] "a" "" 1 % 5 < 5 := by
  refine ⟨by decide, ?_, ?_⟩
  · exact (C3_derived_index_in_bounds "a" "" 1 5 (by decide) []).1
  · exact (C3_derived_index_in_bounds "a" "" 1 5 (by decide) []).2.1

/-- C4: with no OS-supplied random bytes mixed into the hash input (entropy
    empty on both runs) and the same question, salt and iteration count
    (so no timestamp in the input either), two evaluations of the index
    derivation agree; moreover the entropy-free derivation is exactly the
    hash_question of Tableau.py, which reads no ambient state at all. -/
theorem C4_reproducible_index (q s : String) (k N : Nat) (e1 e2 : List Nat)
    (h1 : e1 = []) (h2 : e2 = []) :
    astro_hash_question e1 q s k % N = astro_hash_question e2 q s k % N ∧
    astro_hash_question e1 q s k = hash_question q s k := by
  subst h1
  subst h2
  exact ⟨rfl, rfl⟩

/-- Witness for C4 at question a, empty salt, one iteration, table size 7. -/
theorem C4_witness :
    ([] : List Nat) = [] ∧
      astro_hash_question [] "a" "" 1 % 7 = astro_hash_question [] "a" "" 1 % 7 :=
  ⟨rfl, (C4_reproducible_index "a" "" 1 7 [] [] rfl rfl).1⟩

/-- The retry loop of draw_runes never changes its salt, so once the derived
    index is already used the loop never returns, whatever the fuel. -/
theorem drawLoop_stuck (h : String → String → Nat) (q salt : String)
    (used : List Nat) (hmem : h q salt % RUNE_COUNT ∈ used) :
    ∀ fuel, drawLoop h q salt used fuel = none := by
  intro fuel
  induction fuel with
  | zero => rfl
  | succ f ih =>
    show (if h q salt % RUNE_COUNT ∈ used then drawLoop h q salt used f
          else some (h q salt % RUNE_COUNT)) = none
    rw [if_pos hmem]
    exact ih

/-- C2: the collision-avoidance loop of draw_runes (and the identical
    draw_cards of Lenormand.py) does NOT re-salt on a retry; whenever the
    hash of the second draw salt collides modulo RUNE_COUNT with that of
    the first, drawing two runes loops forever: no amount of fuel makes it
    return. -/
theorem C2_draw_runes_no_resalt_diverges (h : String → String → Nat)
    (q : String) (t : Nat)
    (hcol : h q (runeSalt q 0 t) % RUNE_COUNT =
            h q (runeSalt q 1 t) % RUNE_COUNT) :
    ∀ fuel, draw_runes h q 2 t fuel = none := by
  intro fuel
  cases fuel with
  | zero => rfl
  | succ f =>
    have h0 : drawLoop h q (runeSalt q 0 t) [] (f + 1) =
        some (h q (runeSalt q 0 t) % RUNE_COUNT) := by
      show (if h q (runeSalt q 0 t) % RUNE_COUNT ∈ ([] : List Nat) then
              drawLoop h q (runeSalt q 0 t) [] f
            else some (h q (runeSalt q 0 t) % RUNE_COUNT)) =
          some (h q (runeSalt q 0 t) % RUNE_COUNT)
      rw [if_neg (List.not_mem_nil _)]
    have h1 : drawLoop h q (runeSalt q 1 t)
        [h q (runeSalt q 0 t) % RUNE_COUNT] (f + 1) = none := by
      apply drawLoop_stuck
      rw [← hcol]
      exact List.mem_singleton_self _
    show drawRunesAux h q t (f + 1) 0 2 [] = none
    simp only [drawRunesAux, h0, h1, Option.map_none']

/-- Witness for C2 with a constant hash, which collides on every salt. -/
theorem C2_witness :
    ((fun _ _ => 0 : String → String → Nat) "a" (runeSalt "a" 0 0) % RUNE_COUNT =
     (fun _ _ => 0 : String → String → Nat) "a" (runeSalt "a" 1 0) % RUNE_COUNT) ∧
    draw_runes (fun _ _ => 0) "a" 2 0 5 = none :=
  ⟨rfl, C2_draw_runes_no_resalt_diverges (fun _ _ => 0) "a" 0 rfl 5⟩

/-- C5: the deterministic Fisher-Yates shuffle of Tableau.py returns a
    permutation of the fixed card table (same length, every element exactly
    once), and the library shuffle of the index list in multi.py
    prepare_interactive_deck (whose generator draws below i + 1 at step i)
    permutes list(range(78)). -/
theorem C5_deterministic_shuffle_perm (q : String) (t : Nat)
    (rb : Nat → Nat) (hrb : ∀ m, 0 < m → rb m < m) :
    (shuffle_deck q t).Perm cards ∧
    (shuffle_deck q t).length = cards.length ∧
    (∀ x, (shuffle_deck q t).count x = cards.count x) ∧
    (prepare_deck_indices rb).Perm (List.range 78) := by
  have hperm : (shuffle_deck q t).Perm cards := by
    have hb : ∀ i ∈ (List.range' 1 (DECK_SIZE - 1)).reverse,
        i < cards.length ∧
        hash_question q (shuffleSalt q i t) THINK_DEPTH % (i + 1) < cards.length := by
      intro i hi
      have hm := List.mem_range'_1.mp (List.mem_reverse.mp hi)
      have hc : cards.length = 36 := by decide
      have hd : DECK_SIZE = 36 := rfl
      have hlt : hash_question q (shuffleSalt q i t) THINK_DEPTH % (i + 1) < i + 1 :=
        Nat.mod_lt _ (Nat.succ_pos i)
      omega
    have h := foldl_swap_perm
      (fun i => hash_question q (shuffleSalt q i t) THINK_DEPTH % (i + 1))
      ((List.range' 1 (DECK_SIZE - 1)).reverse) cards hb
    simpa [shuffle_deck, fisherYates] using h
  have hmulti : (prepare_deck_indices rb).Perm (List.range 78) := by
    have hb : ∀ i ∈ (List.range' 1 77).reverse,
        i < (List.range 78).length ∧ rb (i + 1) < (List.range 78).length := by
      intro i hi
      have hm := List.mem_range'_1.mp (List.mem_reverse.mp hi)
      have h78 : (List.range 78).length = 78 := by simp
      have := hrb (i + 1) (Nat.succ_pos i)
      omega
    have h := foldl_swap_perm (fun i => rb (i + 1))
      ((List.range' 1 77).reverse) (List.range 78) hb
    simpa [prepare_deck_indices, pyShuffle] using h
  exact ⟨hperm, hperm.length_eq, fun x => hperm.count_eq x, hmulti⟩

/-- Witness for C5: the bound hypothesis holds for the constant-zero
    generator, and the shuffled index list is then a permutation. -/
theorem C5_witness :
    (∀ m : Nat, 0 < m → (0 : Nat) < m) ∧
      (prepare_deck_indices (fun _ => 0)).Perm (List.range 78) :=
  ⟨fun _ hm => hm,
   (C5_deterministic_shuffle_perm "a" 0 (fun _ => 0) (fun _ hm => hm)).2.2.2⟩

/-- C6: the static tables are never mutated: after shuffle_deck of
    Tableau.py, TarotReader.draw_cards of TAROT2.py and
    get_sephirot_reading of KABBALAH5.py, the module table equals its
    initial value, since each operates on a copy. -/
theorem C6_tables_never_mutated (s1 : TableauState) (q : String) (t : Nat)
    (h2 : String → Nat) (rev : Bool) (n : Nat) (s2 : Tarot2.Tarot2State)
    (h3 : String → Nat) (c : Nat) (s3 : Kabbalah5.Kab5State) :
    (shuffle_deck_st s1 q t).2 = s1 ∧
    (Tarot2.draw_cards_st h2 rev s2 n).2 = s2 ∧
    (Kabbalah5.get_sephirot_reading_st h3 s3 c).2 = s3 :=
  ⟨rfl, rfl, rfl⟩

/-- C7: with the OPENROUTER_API_KEY environment variable unset,
    interpret_reading of Runes.py returns the user-facing error message
    without issuing any HTTP request, and the tail of main still prints the
    already-drawn runes unchanged before that message: only the
    interpretation step is aborted. -/
theorem C7_missing_key_aborts_interpretation_only (key : Option String)
    (hkey : key = none) (post : Payload → String) (model q : String)
    (spread : Nat) (drawn : List String) :
    interpret_reading key post q drawn model = (noKeyMessage, []) ∧
    (runesMainOutput key post model q spread drawn).1 =
      displayRuneLines spread drawn ++ [noKeyMessage] ∧
    (runesMainOutput key post model q spread drawn).2 = [] := by
  subst hkey
  exact ⟨rfl, rfl, rfl⟩

/-- Witness for C7 at a concrete reading. -/
theorem C7_witness :
    (none : Option String) = none ∧
      interpret_reading none (fun _ => "") "q" ["Fehu"] "m" = (noKeyMessage, []) :=
  ⟨rfl,
   (C7_missing_key_aborts_interpretation_only none rfl (fun _ => "") "m" "q" 1
     ["Fehu"]).1⟩

/-! ### Pop-based draw lemmas (TAROT2.py, KABBALAH5.py) -/

/-- Popping position i of a list and consing the popped element back is a
    permutation of the list. -/
theorem getD_eraseIdx_perm (d : α) :
    ∀ (l : List α) (i : Nat), i < l.length →
      (l.getD i d :: l.eraseIdx i).Perm l
  | [], _, h => by simp at h
  | a :: t, 0, _ => by simp
  | a :: t, i + 1, h => by
    have ih := getD_eraseIdx_perm d t i (by simpa using h)
    have h1 : (t.getD i d :: a :: t.eraseIdx i).Perm (a :: t.getD i d :: t.eraseIdx i) :=
      List.Perm.swap a (t.getD i d) (t.eraseIdx i)
    simpa using h1.trans (ih.cons a)

/-- TarotReader.draw_cards draws exactly min of the request and the number
    of available cards, because each draw pops one card and the loop stops
    on an empty list. -/
theorem drawGo_length (h : String → Nat) (rev : Bool) :
    ∀ (c i : Nat) (avail : List Tarot2.TarotCard),
      (Tarot2.drawGo h rev i c avail).length = min c avail.length
  | 0, i, avail => by simp [Tarot2.drawGo]
  | c + 1, i, avail => by
    by_cases hav : avail.isEmpty = true
    · have hnil : avail = [] := List.isEmpty_iff.mp hav
      subst hnil
      simp [Tarot2.drawGo]
    · have hpos : 0 < avail.length := by
        cases avail with
        | nil => simp at hav
        | cons a t => simp
      have hidx : h ("card-draw-" ++ toString i) % avail.length < avail.length :=
        Nat.mod_lt _ hpos
      have ih := drawGo_length h rev c (i + 1)
        (avail.eraseIdx (h ("card-draw-" ++ toString i) % avail.length))
      have herase := List.length_eraseIdx_of_lt hidx
      simp only [Tarot2.drawGo, if_neg hav, List.length_cons, ih, herase]
      omega

/-- The cards underlying the drawn cards of TarotReader.draw_cards are
    pairwise distinct and all come from the available list. -/
theorem drawGo_cards (h : String → Nat) (rev : Bool) :
    ∀ (c i : Nat) (avail : List Tarot2.TarotCard), avail.Nodup →
      ((Tarot2.drawGo h rev i c avail).map (fun dc => dc.card)).Nodup ∧
      ∀ dc ∈ Tarot2.drawGo h rev i c avail, dc.card ∈ avail
  | 0, i, avail, _ => by simp [Tarot2.drawGo]
  | c + 1, i, avail, hnd => by
    by_cases hav : avail.isEmpty = true
    · have hnil : avail = [] := List.isEmpty_iff.mp hav
      subst hnil
      simp [Tarot2.drawGo]
    · have hpos : 0 < avail.length := by
        cases avail with
        | nil => simp at hav
        | cons a t => simp
      have hidx : h ("card-draw-" ++ toString i) % avail.length < avail.length :=
        Nat.mod_lt _ hpos
      have hperm := getD_eraseIdx_perm (⟨"", false⟩ : Tarot2.TarotCard) avail
        (h ("card-draw-" ++ toString i) % avail.length) hidx
      have hcons := (hperm.nodup_iff).mpr hnd
      have hhead := (List.nodup_cons.mp hcons).1
      have htail := (List.nodup_cons.mp hcons).2
      obtain ⟨ihnd, ihsub⟩ := drawGo_cards h rev c (i + 1)
        (avail.eraseIdx (h ("card-draw-" ++ toString i) % avail.length)) htail
      have hunfold : Tarot2.drawGo h rev i (c + 1) avail =
          ⟨avail.getD (h ("card-draw-" ++ toString i) % avail.length) ⟨"", false⟩,
            rev && (h ("reversal-" ++ toString i) &&& 1 == 1)⟩ ::
          Tarot2.drawGo h rev (i + 1) c
            (avail.eraseIdx (h ("card-draw-" ++ toString i) % avail.length)) := by
        simp only [Tarot2.drawGo, if_neg hav]
      rw [hunfold]
      constructor
      · rw [List.map_cons]
        refine List.nodup_cons.mpr ⟨?_, ihnd⟩
        intro hmem
        obtain ⟨dc, hdc, hcard⟩ := List.mem_map.mp hmem
        have hc2 : dc.card =
            avail.getD (h ("card-draw-" ++ toString i) % avail.length) ⟨"", false⟩ :=
          hcard
        exact hhead (hc2 ▸ ihsub dc hdc)
      · intro dc hdc
        rcases List.mem_cons.mp hdc with rfl | hdc2
        · exact (hperm.mem_iff).mp (List.mem_cons_self _ _)
        · exact (hperm.mem_iff).mp (List.mem_cons_of_mem _ (ihsub dc hdc2))

/-- get_paths_reading pops count paths from a duplicate-free list of at
    least count paths: it succeeds and the result is duplicate-free with
    exactly count entries, all from the list. -/
theorem pathsGo_spec (h : String → Nat) :
    ∀ (c i : Nat) (avail : List String), avail.Nodup → c ≤ avail.length →
      ∃ l, Kabbalah5.pathsGo h i c avail = some l ∧ l.Nodup ∧ l.length = c ∧
        ∀ x ∈ l, x ∈ avail
  | 0, i, avail, _, _ => ⟨[], rfl, List.nodup_nil, rfl, by simp⟩
  | c + 1, i, avail, hnd, hc => by
    have hpos : 0 < avail.length := by omega
    have hav : ¬(avail.isEmpty = true) := by
      cases avail with
      | nil => simp at hpos
      | cons a t => simp
    have hidx : h ("path-" ++ toString i) % avail.length < avail.length :=
      Nat.mod_lt _ hpos
    have hperm := getD_eraseIdx_perm "" avail
      (h ("path-" ++ toString i) % avail.length) hidx
    have hcons := (hperm.nodup_iff).mpr hnd
    have hhead := (List.nodup_cons.mp hcons).1
    have htail := (List.nodup_cons.mp hcons).2
    have hlen := List.length_eraseIdx_of_lt hidx
    obtain ⟨l, hl, hlnd, hllen, hlsub⟩ := pathsGo_spec h c (i + 1)
      (avail.eraseIdx (h ("path-" ++ toString i) % avail.length)) htail (by omega)
    refine ⟨avail.getD (h ("path-" ++ toString i) % avail.length) "" :: l,
      ?_, ?_, ?_, ?_⟩
    · have hunfold : Kabbalah5.pathsGo h i (c + 1) avail =
          (Kabbalah5.pathsGo h (i + 1) c
            (avail.eraseIdx (h ("path-" ++ toString i) % avail.length))).map
          (fun rest => avail.getD (h ("path-" ++ toString i) % avail.length) "" :: rest) := by
        simp only [Kabbalah5.pathsGo, if_neg hav]
      rw [hunfold, hl, Option.map_some']
    · exact List.nodup_cons.mpr ⟨fun hmem => hhead (hlsub _ hmem), hlnd⟩
    · simp [hllen]
    · intro x hx
      rcases List.mem_cons.mp hx with rfl | hx2
      · exact (hperm.mem_iff).mp (List.mem_cons_self _ _)
      · exact (hperm.mem_iff).mp (List.mem_cons_of_mem _ (hlsub _ hx2))

/-- The 78-card deck of TAROT2.py has pairwise-distinct cards. -/
theorem build_deck_nodup : Tarot2.build_deck.Nodup := by
  decide

/-- C8: TarotReader.draw_cards of TAROT2.py returns exactly min n 78 drawn
    cards whose underlying cards are pairwise distinct, for every hash
    engine and request size, because each selection is popped before the
    next; and the same pop mechanism in get_paths_reading of KABBALAH5.py
    yields pairwise-distinct paths whenever count is at most 22. -/
theorem C8_pop_based_draws_distinct (h1 : String → Nat) (rev : Bool) (n : Nat)
    (h2 : String → Nat) (count : Nat) (hcount : count ≤ 22) :
    (Tarot2.draw_cards h1 rev n).length = min n 78 ∧
    ((Tarot2.draw_cards h1 rev n).map (fun dc => dc.card)).Nodup ∧
    ∃ l, Kabbalah5.get_paths_reading h2 count = some l ∧ l.Nodup ∧
      l.length = count := by
  have hdlen : Tarot2.build_deck.length = 78 := by decide
  refine ⟨?_, ?_, ?_⟩
  · show (Tarot2.drawGo h1 rev 0 n Tarot2.build_deck).length = min n 78
    rw [drawGo_length h1 rev n 0 Tarot2.build_deck, hdlen]
  · exact (drawGo_cards h1 rev n 0 Tarot2.build_deck build_deck_nodup).1
  · by_cases hz : count = 0
    · subst hz
      exact ⟨[], by simp [Kabbalah5.get_paths_reading], List.nodup_nil, rfl⟩
    · have hplen : Kabbalah5.paths.length = 22 := by decide
      have hpnd : Kabbalah5.paths.Nodup := by decide
      obtain ⟨l, hl, hlnd, hllen, _⟩ :=
        pathsGo_spec h2 count 0 Kabbalah5.paths hpnd (by omega)
      refine ⟨l, ?_, hlnd, hllen⟩
      show (if count = 0 then some [] else Kabbalah5.pathsGo h2 0 count Kabbalah5.paths) = some l
      rw [if_neg hz]
      exact hl

/-- Witness for C8 with a constant hash engine, drawing 3 cards and 2 paths. -/
theorem C8_witness :
    2 ≤ 22 ∧
      ∃ l, Kabbalah5.get_paths_reading (fun _ => 0) 2 = some l ∧ l.Nodup ∧
        l.length = 2 :=
  ⟨by decide,
   (C8_pop_based_draws_distinct (fun _ => 0) false 3 (fun _ => 0) 2 (by decide)).2.2⟩

/-! ### Geomancy figure lemmas -/

/-- Each line of a figure sum is 1 or 2. -/
theorem validLine_mod_two (a b : Nat) : Geomancy.validLine ((a + b) % 2 + 1) := by
  unfold Geomancy.validLine
  omega

/-- add_figures always lands in the value set of the figures dictionary. -/
theorem add_figures_valid (f1 f2 : Geomancy.Fig) :
    Geomancy.validFig (Geomancy.add_figures f1 f2) :=
  ⟨validLine_mod_two _ _, validLine_mod_two _ _, validLine_mod_two _ _,
   validLine_mod_two _ _⟩

/-- random.choice of the two-element list [1, 2] always yields 1 or 2. -/
theorem choiceVal_valid (pick : Nat → Fin 2) (n : Nat) :
    Geomancy.validLine (Geomancy.choiceVal pick n) := by
  unfold Geomancy.choiceVal Geomancy.validLine
  split
  · exact Or.inl rfl
  · exact Or.inr rfl

/-- Every mother figure has lines in one-two. -/
theorem mother_valid (pick : Nat → Fin 2) (i : Nat) :
    Geomancy.validFig (Geomancy.mother pick i) :=
  ⟨choiceVal_valid pick (4 * i), choiceVal_valid pick (4 * i + 1),
   choiceVal_valid pick (4 * i + 2), choiceVal_valid pick (4 * i + 3)⟩

/-- Every line of a valid figure is 1 or 2. -/
theorem figComp_valid (f : Geomancy.Fig) (hf : Geomancy.validFig f) (i : Nat) :
    Geomancy.validLine (Geomancy.figComp f i) := by
  obtain ⟨h1, h2, h3, h4⟩ := hf
  match i with
  | 0 => exact h1
  | 1 => exact h2
  | 2 => exact h3
  | n + 3 => exact h4

/-- Every daughter figure has lines in one-two. -/
theorem daughter_valid (pick : Nat → Fin 2) (i : Nat) :
    Geomancy.validFig (Geomancy.daughter pick i) :=
  ⟨figComp_valid _ (mother_valid pick 0) i, figComp_valid _ (mother_valid pick 1) i,
   figComp_valid _ (mother_valid pick 2) i, figComp_valid _ (mother_valid pick 3) i⟩

/-- Every valid figure is a key of the figures dictionary. -/
theorem figureName_isSome_of_valid (f : Geomancy.Fig)
    (hf : Geomancy.validFig f) : (Geomancy.figureName f).isSome := by
  obtain ⟨a, b, c, d⟩ := f
  obtain ⟨ha, hb, hc, hd⟩ := hf
  rcases ha with rfl | rfl <;> rcases hb with rfl | rfl <;>
    rcases hc with rfl | rfl <;> rcases hd with rfl | rfl <;> decide

/-- All sixteen shield-chart figures are valid. -/
theorem allShieldFigures_valid (pick : Nat → Fin 2) :
    ∀ f ∈ Geomancy.allShieldFigures pick, Geomancy.validFig f := by
  intro f hf
  simp only [Geomancy.allShieldFigures, Geomancy.generate_mothers,
    Geomancy.derive_daughters, Geomancy.nieces, Geomancy.witnesses,
    Geomancy.judge, List.mem_append, List.mem_cons, List.not_mem_nil,
    or_false] at hf
  casesm* _ ∨ _ <;> subst_vars <;>
    first
      | exact mother_valid pick _
      | exact daughter_valid pick _
      | exact add_figures_valid _ _

/-- Looking every figure of a list up succeeds when each lookup succeeds. -/
theorem lookupAll_isSome :
    ∀ (l : List Geomancy.Fig), (∀ f ∈ l, (Geomancy.figureName f).isSome) →
      (Geomancy.lookupAll l).isSome := by
  intro l
  induction l with
  | nil => intro _; rfl
  | cons a t ih =>
    intro h
    obtain ⟨x, hx⟩ := Option.isSome_iff_exists.mp (h a (List.mem_cons_self a t))
    obtain ⟨xs, hxs⟩ := Option.isSome_iff_exists.mp
      (ih (fun f hf => h f (List.mem_cons_of_mem a hf)))
    simp [Geomancy.lookupAll, hx, hxs]

/-- C9: add_figures maps any two figures with lines in one-two to a figure
    with lines in one-two, and every figure of the shield chart (mothers,
    daughters, nieces, witnesses, judge) is a key of the figures
    dictionary, so generate_shield_chart never fails a lookup. -/
theorem C9_shield_chart_lookups_never_fail :
    (∀ f1 f2 : Geomancy.Fig, Geomancy.validFig f1 → Geomancy.validFig f2 →
      Geomancy.validFig (Geomancy.add_figures f1 f2)) ∧
    ∀ pick : Nat → Fin 2, (Geomancy.generate_shield_chart pick).isSome := by
  constructor
  · intro f1 f2 _ _
    exact add_figures_valid f1 f2
  · intro pick
    show (Geomancy.lookupAll (Geomancy.allShieldFigures pick)).isSome
    exact lookupAll_isSome _ (fun f hf =>
      figureName_isSome_of_valid f (allShieldFigures_valid pick f hf))

/-- Witness for C9 at two concrete figures. -/
theorem C9_witness :
    Geomancy.validFig (1, 1, 1, 1) ∧ Geomancy.validFig (2, 1, 2, 1) ∧
    Geomancy.validFig (Geomancy.add_figures (1, 1, 1, 1) (2, 1, 2, 1)) := by
  have v1 : Geomancy.validFig (1, 1, 1, 1) :=
    ⟨Or.inl rfl, Or.inl rfl, Or.inl rfl, Or.inl rfl⟩
  have v2 : Geomancy.validFig (2, 1, 2, 1) :=
    ⟨Or.inr rfl, Or.inl rfl, Or.inr rfl, Or.inl rfl⟩
  exact ⟨v1, v2, C9_shield_chart_lookups_never_fail.1 _ _ v1 v2⟩

/-! ### I-Ching casting lemmas -/

/-- Every cast line value is between 6 and 9. -/
theorem line_from_digest_bounds (d : List Nat) :
    6 ≤ IChing.line_from_digest d ∧ IChing.line_from_digest d ≤ 9 := by
  simp only [IChing.line_from_digest, Nat.and_one_is_mod]
  omega

/-- Flipping a yin-yang bit changes it. -/
theorem flip_bit_ne_yin_yang (v : Nat) :
    IChing.flip_bit (IChing.yin_yang_bit v) ≠ IChing.yin_yang_bit v := by
  unfold IChing.yin_yang_bit IChing.flip_bit
  split
  · decide
  · decide

/-- Folding bit flips over pairwise-distinct indices flips exactly the
    member positions. -/
theorem foldl_flip_getD :
    ∀ (idxs : List Nat), idxs.Nodup → ∀ (rb : List Nat) (j : Nat), j < rb.length →
      ((idxs.foldl (fun rb2 i => rb2.set i (IChing.flip_bit (rb2.getD i 0))) rb).getD j 0) =
        if j ∈ idxs then IChing.flip_bit (rb.getD j 0) else rb.getD j 0
  | [], _, rb, j, _ => by simp
  | i :: rest, hnd, rb, j, hj => by
    have hi := (List.nodup_cons.mp hnd).1
    have hrest := (List.nodup_cons.mp hnd).2
    have hlen : (rb.set i (IChing.flip_bit (rb.getD i 0))).length = rb.length := by simp
    have ih := foldl_flip_getD rest hrest (rb.set i (IChing.flip_bit (rb.getD i 0))) j
      (by omega)
    simp only [List.foldl_cons]
    rw [ih]
    by_cases hij : i = j
    · subst hij
      have hset : (rb.set i (IChing.flip_bit (rb.getD i 0))).getD i 0 =
          IChing.flip_bit (rb.getD i 0) := by
        simp [List.getD_eq_getElem?_getD, List.getElem?_set_self hj]
      rw [if_neg hi, hset, if_pos (List.mem_cons_self i rest)]
    · have hset : (rb.set i (IChing.flip_bit (rb.getD i 0))).getD j 0 = rb.getD j 0 := by
        simp [List.getD_eq_getElem?_getD, List.getElem?_set_ne hij]
      rw [hset]
      by_cases hjr : j ∈ rest
      · rw [if_pos hjr, if_pos (List.mem_cons_of_mem i hjr)]
      · rw [if_neg hjr, if_neg ?_]
        intro hmem
        rcases List.mem_cons.mp hmem with h1 | h2
        · exact hij h1.symm
        · exact hjr h2

/-- The cast line list evaluated at an index below six. -/
theorem castLines_getD (digest : Nat → List Nat) (i : Nat) (hi : i < 6) :
    (IChing.castLines digest).getD i 0 = IChing.line_from_digest (digest i) := by
  simp [IChing.castLines, List.getD_eq_getElem?_getD, List.getElem?_map,
    List.getElem?_range, hi]

/-- The primary bit at an index below six. -/
theorem primaryBits_getD (digest : Nat → List Nat) (i : Nat) (hi : i < 6) :
    (IChing.primaryBits digest).getD i 0 =
      IChing.yin_yang_bit ((IChing.castLines digest).getD i 0) := by
  simp [IChing.primaryBits, IChing.castLines, List.getD_eq_getElem?_getD,
    List.getElem?_map, List.getElem?_range, hi]

/-- The primary bit list has six entries. -/
theorem primaryBits_length (digest : Nat → List Nat) :
    (IChing.primaryBits digest).length = 6 := by
  simp [IChing.primaryBits, IChing.castLines]

/-- Membership in the moving-line index list. -/
theorem mem_movingIdx (digest : Nat → List Nat) (i : Nat) (hi : i < 6) :
    (i ∈ IChing.movingIdx digest) ↔
      ((IChing.castLines digest).getD i 0 = 6 ∨
        (IChing.castLines digest).getD i 0 = 9) := by
  simp [IChing.movingIdx, List.mem_filter, List.mem_range, hi]

/-- The moving-line indices are pairwise distinct. -/
theorem movingIdx_nodup (digest : Nat → List Nat) :
    (IChing.movingIdx digest).Nodup :=
  List.Nodup.filter _ (List.nodup_range 6)

/-- C10: every derived line value of cast_hexagram lies in 6..9, the
    relating bits differ from the primary bits exactly at the indices whose
    line value is 6 or 9, and with no moving line the relating bits equal
    the primary bits. -/
theorem C10_cast_hexagram_lines (digest : Nat → List Nat) (i : Nat) (hi : i < 6) :
    (∀ v ∈ IChing.castLines digest, 6 ≤ v ∧ v ≤ 9) ∧
    ((IChing.relatingBits digest).getD i 0 ≠ (IChing.primaryBits digest).getD i 0 ↔
      ((IChing.castLines digest).getD i 0 = 6 ∨
        (IChing.castLines digest).getD i 0 = 9)) ∧
    (IChing.movingIdx digest = [] →
      IChing.relatingBits digest = IChing.primaryBits digest) := by
  refine ⟨?_, ?_, ?_⟩
  · intro v hv
    simp only [IChing.castLines, List.mem_map, List.mem_range] at hv
    obtain ⟨m, _, rfl⟩ := hv
    exact line_from_digest_bounds (digest m)
  · have hlen : i < (IChing.primaryBits digest).length := by
      rw [primaryBits_length]
      exact hi
    have hrel : (IChing.relatingBits digest).getD i 0 =
        if i ∈ IChing.movingIdx digest then
          IChing.flip_bit ((IChing.primaryBits digest).getD i 0)
        else (IChing.primaryBits digest).getD i 0 :=
      foldl_flip_getD (IChing.movingIdx digest) (movingIdx_nodup digest)
        (IChing.primaryBits digest) i hlen
    rw [hrel]
    by_cases hmem : i ∈ IChing.movingIdx digest
    · rw [if_pos hmem]
      constructor
      · intro _
        exact (mem_movingIdx digest i hi).mp hmem
      · intro _
        rw [primaryBits_getD digest i hi]
        exact flip_bit_ne_yin_yang _
    · rw [if_neg hmem]
      constructor
      · intro hne
        exact absurd rfl hne
      · intro hcond
        exact absurd ((mem_movingIdx digest i hi).mpr hcond) hmem
  · intro h
    have hdef : IChing.relatingBits digest =
        (IChing.movingIdx digest).foldl
          (fun rb2 i2 => rb2.set i2 (IChing.flip_bit (rb2.getD i2 0)))
          (IChing.primaryBits digest) := rfl
    rw [hdef, h]
    rfl

/-- Witness for C10 at the all-zero digest and line index 0. -/
theorem C10_witness :
    (0 : Nat) < 6 ∧
      ((IChing.relatingBits (fun _ => [0])).getD 0 0 ≠
          (IChing.primaryBits (fun _ => [0])).getD 0 0 ↔
        ((IChing.castLines (fun _ => [0])).getD 0 0 = 6 ∨
          (IChing.castLines (fun _ => [0])).getD 0 0 = 9)) :=
  ⟨by decide, (C10_cast_hexagram_lines (fun _ => [0]) 0 (by decide)).2.1⟩

end Div


